import Mathlib

/-!
# Verification of the guide2goWEB synchronization pipeline and cache

Shallow embedding of the cache store (src/cache.go), the sync orchestrator
(src/data.go), the retrying client (src/sd.go) and the configuration helpers
(src/configure.go, src/struct_config.go) of the guide2goWEB repository.

Modelling conventions:
- Go `map[string]V` is modelled as an association list `SMap V` with unique
  keys maintained by `SMap.insert` (replace-in-place on an existing key,
  append otherwise); `SMap.find` is map indexing.
- `time.Time` values and `time.Duration` values are modelled as `Int`
  nanoseconds; `t1.After(t2)` is `t1 > t2`, `t1.Before(t2)` is `t1 < t2`.
- JSON decoding (`json.Unmarshal`) and gzip decompression of request payloads
  are abstracted: merge functions take the already-decoded payload values.
- Go string slicing `s[i:j]` panics when the bounds are out of range; it is
  modelled by `goSlice`, which returns `none` exactly when Go would panic.
  Program IDs are ASCII, so byte indexing and character indexing agree.
-/

/-- Go `map[string]V`, represented as an association list with the invariant
(maintained by `SMap.insert`) that keys are unique. -/
abbrev SMap (V : Type) : Type := List (String × V)

/-- Map indexing `m[k]`: the value at the first occurrence of key `k`. -/
def SMap.find {V : Type} : SMap V → String → Option V
  | [], _ => none
  | (k1, v) :: rest, k => if k1 = k then some v else SMap.find rest k

/-- Map assignment `m[k] = v`: replace the value at the first occurrence of
`k`, or append a fresh binding when `k` is absent. -/
def SMap.insert {V : Type} : SMap V → String → V → SMap V
  | [], k, v => [(k, v)]
  | (k1, v1) :: rest, k, v =>
      if k1 = k then (k, v) :: rest else (k1, v1) :: SMap.insert rest k v

/-- Insert every binding of `upd` into `m`, in order (the semantics of
`json.Unmarshal` merging a JSON object into an existing non-nil Go map). -/
def SMap.insertAll {V : Type} (m : SMap V) (upd : SMap V) : SMap V :=
  upd.foldl (fun acc kv => acc.insert kv.1 kv.2) m

/-- The keys of a map, in representation order. -/
def SMap.keys {V : Type} (m : SMap V) : List String := m.map Prod.fst

theorem SMap.find_insert {V : Type} (m : SMap V) (k k2 : String) (v : V) :
    (m.insert k v).find k2 = if k = k2 then some v else m.find k2 := by
  induction m with
  | nil =>
      by_cases h : k = k2 <;> simp [SMap.insert, SMap.find, h]
  | cons hd tl ih =>
      obtain ⟨k1, v1⟩ := hd
      by_cases h1 : k1 = k
      · subst h1
        by_cases h2 : k1 = k2 <;> simp [SMap.insert, SMap.find, h2]
      · by_cases h2 : k1 = k2
        · subst h2
          have hne : ¬ k = k1 := fun h => h1 h.symm
          simp [SMap.insert, SMap.find, h1, hne]
        · simp [SMap.insert, SMap.find, h1, h2, ih]

theorem SMap.insert_self {V : Type} (m : SMap V) (k : String) (v : V)
    (h : m.find k = some v) : m.insert k v = m := by
  induction m with
  | nil => simp [SMap.find] at h
  | cons hd tl ih =>
      obtain ⟨k1, v1⟩ := hd
      by_cases h1 : k1 = k
      · subst h1
        simp [SMap.find] at h
        simp [SMap.insert, h]
      · simp [SMap.find, h1] at h
        simp [SMap.insert, h1, ih h]

theorem SMap.insertAll_self_aux {V : Type} (m : SMap V) (upd : SMap V)
    (h : ∀ kv ∈ upd, m.find kv.1 = some kv.2) : m.insertAll upd = m := by
  induction upd with
  | nil => rfl
  | cons hd tl ih =>
      have h1 : m.insert hd.1 hd.2 = m :=
        SMap.insert_self m hd.1 hd.2 (h hd (List.mem_cons_self hd tl))
      show SMap.insertAll (m.insert hd.1 hd.2) tl = m
      rw [h1]
      exact ih (fun kv hkv => h kv (List.mem_cons_of_mem hd hkv))

theorem SMap.find_of_mem_nodup {V : Type} (m : SMap V) (kv : String × V)
    (hnd : m.keys.Nodup) (hm : kv ∈ m) : m.find kv.1 = some kv.2 := by
  induction m with
  | nil => simp at hm
  | cons hd tl ih =>
      simp only [SMap.keys, List.map_cons, List.nodup_cons] at hnd
      rcases List.mem_cons.mp hm with h | h
      · subst h
        simp [SMap.find]
      · have hne : hd.1 ≠ kv.1 := by
          intro he
          exact hnd.1 (he ▸ (List.mem_map.mpr ⟨kv, h, rfl⟩))
        simpa [SMap.find, hne] using ih hnd.2 h

/-- A map merged with itself (as `json.Unmarshal` does when re-reading a
snapshot into the same instance) is unchanged, given the Go-map invariant
of unique keys. -/
theorem SMap.insertAll_self {V : Type} (m : SMap V) (hnd : m.keys.Nodup) :
    m.insertAll m = m :=
  SMap.insertAll_self_aux m m (fun kv hkv => SMap.find_of_mem_nodup m kv hnd hkv)

/-! ## Data model (src/cache.go, src/struct_config.go)

The Go source uses anonymous nested struct types; each of them is named
here. All fields carry their Go zero values as defaults, so that a Lean
structure literal listing only some fields means the same thing as the
corresponding Go composite literal. -/

/-- The logo struct embedded in stations and channels (src/cache.go). -/
structure LogoT where
  URL : String := ""
  Height : Int := 0
  Width : Int := 0
  Md5 : String := ""
deriving DecidableEq

/-- One entry of the stationLogo list (src/cache.go). -/
structure StationLogoT where
  URL : String := ""
  Height : Int := 0
  Width : Int := 0
  Md5 : String := ""
  Source : String := ""
deriving DecidableEq

/-- One cast entry (src/cache.go). -/
structure CastEntry where
  BillingOrder : String := ""
  CharacterName : String := ""
  Name : String := ""
  NameID : String := ""
  PersonID : String := ""
  Role : String := ""
deriving DecidableEq

/-- One crew entry (src/cache.go). -/
structure CrewEntry where
  BillingOrder : String := ""
  Name : String := ""
  NameID : String := ""
  PersonID : String := ""
  Role : String := ""
deriving DecidableEq

/-- One content-rating entry (src/cache.go). -/
structure ContentRatingEntry where
  Body : String := ""
  Code : String := ""
  Country : String := ""
deriving DecidableEq

/-- One description entry (src/cache.go). -/
structure DescEntry where
  Description : String := ""
  DescriptionLanguage : String := ""
deriving DecidableEq

/-- The descriptions struct (src/cache.go). -/
structure DescriptionsT where
  Description1000 : List DescEntry := []
  Description100 : List DescEntry := []
deriving DecidableEq

/-- One title entry (src/cache.go). -/
structure TitleEntry where
  Title120 : String := ""
deriving DecidableEq

/-- The Gracenote season/episode struct (src/cache.go). -/
structure GracenoteT where
  Episode : Int := 0
  Season : Int := 0
deriving DecidableEq

/-- One program-metadata entry wrapping a Gracenote struct (src/cache.go). -/
structure MetadataEntry where
  Gracenote : GracenoteT := {}
deriving DecidableEq

/-- One schedule rating entry (src/cache.go). -/
structure RatingEntry where
  Body : String := ""
  Code : String := ""
deriving DecidableEq

/-- Data: one artwork descriptor (src/cache.go). -/
structure Data where
  Aspect : String := ""
  Height : String := ""
  Size : String := ""
  URI : String := ""
  Width : String := ""
  Category : String := ""
  Tier : String := ""
deriving DecidableEq

/-- G2GCache: one cached record; the union of channel, schedule-slot,
program and metadata fields (src/cache.go). `AirDateTime` is a
`time.Time`, modelled as `Int` nanoseconds. -/
structure G2GCache where
  Md5 : String := ""
  ProgramID : String := ""
  StationID : String := ""
  Name : String := ""
  Callsign : String := ""
  Affiliate : String := ""
  BroadcastLanguage : List String := []
  StationLogo : List StationLogoT := []
  Logo : LogoT := {}
  AirDateTime : Int := 0
  AudioProperties : List String := []
  Duration : Int := 0
  LiveTapeDelay : String := ""
  New : Bool := false
  Ratings : List RatingEntry := []
  VideoProperties : List String := []
  Cast : List CastEntry := []
  Crew : List CrewEntry := []
  ContentRating : List ContentRatingEntry := []
  Descriptions : DescriptionsT := {}
  EpisodeTitle150 : String := ""
  Genres : List String := []
  HasEpisodeArtwork : Bool := false
  HasImageArtwork : Bool := false
  HasSeriesArtwork : Bool := false
  Metadata : List MetadataEntry := []
  OriginalAirDate : String := ""
  ResourceID : String := ""
  ShowType : String := ""
  Titles : List TitleEntry := []
  Data : List Data := []
deriving DecidableEq

/-- SDProgram: one decoded program record from the remote API (src/cache.go). -/
structure SDProgram where
  Cast : List CastEntry := []
  ContentAdvisory : List String := []
  ContentRating : List ContentRatingEntry := []
  Crew : List CrewEntry := []
  Descriptions : DescriptionsT := {}
  EntityType : String := ""
  EpisodeTitle150 : String := ""
  Genres : List String := []
  HasEpisodeArtwork : Bool := false
  HasImageArtwork : Bool := false
  HasSeriesArtwork : Bool := false
  Md5 : String := ""
  Metadata : List MetadataEntry := []
  OriginalAirDate : String := ""
  ProgramID : String := ""
  ResourceID : String := ""
  ShowType : String := ""
  Titles : List TitleEntry := []
deriving DecidableEq

/-- SDMetadata: one decoded artwork-metadata record (src/cache.go). -/
structure SDMetadata where
  Data : List Data := []
  ProgramID : String := ""
deriving DecidableEq

/-- The broadcaster struct inside a station entry (src/cache.go). -/
structure BroadcasterT where
  City : String := ""
  Country : String := ""
  Postalcode : String := ""
  State : String := ""
deriving DecidableEq

/-- One station entry of a lineup roster (src/cache.go, SDStation.Stations). -/
structure SDStationEntry where
  Affiliate : String := ""
  BroadcastLanguage : List String := []
  Broadcaster : BroadcasterT := {}
  Callsign : String := ""
  DescriptionLanguage : List String := []
  Logo : LogoT := {}
  Name : String := ""
  StationID : String := ""
  StationLogo : List StationLogoT := []
deriving DecidableEq

/-- One channel-number mapping entry (src/cache.go, SDStation.Map). -/
structure SDStationMapEntry where
  Channel : String := ""
  StationID : String := ""
deriving DecidableEq

/-- The lineup metadata struct (src/cache.go, SDStation.Metadata). -/
structure SDStationMetadataT where
  Lineup : String := ""
  Modified : String := ""
  Transport : String := ""
deriving DecidableEq

/-- SDStation: a decoded lineup station roster (src/cache.go). -/
structure SDStation where
  Map : List SDStationMapEntry := []
  Metadata : SDStationMetadataT := {}
  Stations : List SDStationEntry := []
deriving DecidableEq

/-- One program slot of a decoded schedule (src/cache.go, SDSchedule.Programs). -/
structure SDScheduleProgram where
  AirDateTime : Int := 0
  AudioProperties : List String := []
  Duration : Int := 0
  LiveTapeDelay : String := ""
  New : Bool := false
  Md5 : String := ""
  ProgramID : String := ""
  Ratings : List RatingEntry := []
  VideoProperties : List String := []
deriving DecidableEq

/-- SDSchedule: one decoded per-station schedule (src/cache.go). -/
structure SDSchedule where
  Programs : List SDScheduleProgram := []
  StationID : String := ""
deriving DecidableEq

/-- One configured station (src/struct_config.go, type channel). The
presentation-only fields DisplayName and Icon are not read by any verified
operation and are omitted. -/
structure channel where
  Name : String := ""
  ID : String := ""
  Lineup : String := ""
  Date : List String := []
deriving DecidableEq

/-- The application configuration (src/struct_config.go, type config).
Only the field read by the verified cache operations is modelled. -/
structure config where
  Station : List channel := []
deriving DecidableEq

/-- EpisodeNum: one projected episode-number value object returned by the
query facade (the XMLTV value struct; its definition file is not under
src/, its two fields are taken from the uses in src/cache.go). -/
structure EpisodeNum where
  Value : String := ""
  System : String := ""
deriving DecidableEq

/-- cache: the store of the four entity maps (src/cache.go). This is the
initialized store, after cache.Init has allocated the maps: every merge,
prune and query method runs only on such states (writing to a nil Go map
would panic, and GetData always calls Init before the first merge). The
nil-ability of the maps matters only to Init/Open/Save and is modelled
separately by cacheRaw below. -/
structure cache where
  Channel : SMap G2GCache := []
  Program : SMap G2GCache := []
  Metadata : SMap G2GCache := []
  Schedule : SMap (List G2GCache) := []
  expiration : Int := 0
deriving DecidableEq

/-! ## Cache operations (src/cache.go, src/configure.go) -/

/-- Modelled from the spec: the helper `ContainsString` is called by
`cache.AddStations` (src/cache.go) and by src/channels.go, but its defining
file is not under src/. Per the spec's lineup phase ("filter to only the
station IDs the caller has selected") and both call sites (compared with -1),
it returns the index of `e` in `list`, or -1 when `e` is absent. -/
def ContainsString (list : List String) (e : String) : Int :=
  match list.findIdx? (fun s => s = e) with
  | some i => (i : Int)
  | none => -1

/-- config.GetChannelList (src/configure.go): the caller-selected station IDs,
all of them when `lineup` is empty, else those configured for `lineup`. -/
def config.GetChannelList (c : config) (lineup : String) : List String :=
  c.Station.foldl
    (fun list ch =>
      match lineup.length with
      | 0 => list ++ [ch.ID]
      | _ + 1 => if lineup = ch.Lineup then list ++ [ch.ID] else list)
    []

/-- The G2GCache record built for one station by cache.AddStations
(src/cache.go). -/
def stationRecord (sd : SDStationEntry) : G2GCache :=
  { StationID := sd.StationID
    Name := sd.Name
    Callsign := sd.Callsign
    Affiliate := sd.Affiliate
    BroadcastLanguage := sd.BroadcastLanguage
    Logo := sd.Logo }

/-- cache.AddStations (src/cache.go): merge a decoded lineup roster into the
Channel map, keeping only the stations whose ID is in the caller-selected
channel list of `lineup`. -/
def cache.AddStations (c : cache) (sdData : SDStation) (lineup : String)
    (cfg : config) : cache :=
  let channelIDs := cfg.GetChannelList lineup
  { c with
    Channel := sdData.Stations.foldl
      (fun m sd =>
        if ContainsString channelIDs sd.StationID ≠ -1 then
          m.insert sd.StationID (stationRecord sd)
        else m)
      c.Channel }

/-- The G2GCache slot built for one schedule program by cache.AddSchedule
(src/cache.go). -/
def scheduleSlot (p : SDScheduleProgram) : G2GCache :=
  { AirDateTime := p.AirDateTime
    AudioProperties := p.AudioProperties
    Duration := p.Duration
    LiveTapeDelay := p.LiveTapeDelay
    New := p.New
    Md5 := p.Md5
    ProgramID := p.ProgramID
    Ratings := p.Ratings
    VideoProperties := p.VideoProperties }

/-- The body of cache.AddSchedule's outer loop (src/cache.go): ensure the
station's slot list exists, then append one slot per program. -/
def addScheduleEntry (m : SMap (List G2GCache)) (sd : SDSchedule) :
    SMap (List G2GCache) :=
  let m0 := match m.find sd.StationID with
    | none => m.insert sd.StationID []
    | some _ => m
  sd.Programs.foldl
    (fun acc p =>
      acc.insert sd.StationID (((acc.find sd.StationID).getD []) ++ [scheduleSlot p]))
    m0

/-- cache.AddSchedule (src/cache.go): append the decoded schedule payload's
slots to the per-station slot lists. -/
def cache.AddSchedule (c : cache) (sdData : List SDSchedule) : cache :=
  { c with Schedule := sdData.foldl addScheduleEntry c.Schedule }

/-- The G2GCache record built for one program by cache.AddProgram
(src/cache.go). -/
def programRecord (sd : SDProgram) : G2GCache :=
  { Descriptions := sd.Descriptions
    EpisodeTitle150 := sd.EpisodeTitle150
    Genres := sd.Genres
    HasEpisodeArtwork := sd.HasEpisodeArtwork
    HasImageArtwork := sd.HasImageArtwork
    HasSeriesArtwork := sd.HasSeriesArtwork
    Metadata := sd.Metadata
    OriginalAirDate := sd.OriginalAirDate
    ResourceID := sd.ResourceID
    ShowType := sd.ShowType
    Titles := sd.Titles
    ContentRating := sd.ContentRating
    Cast := sd.Cast
    Crew := sd.Crew }

/-- cache.AddProgram (src/cache.go): upsert each decoded program record into
the Program map, keyed by its program ID (gzip decompression and JSON
decoding abstracted away; the WaitGroup bookkeeping is modelled in the
processProgramsAndMetadata section below). -/
def cache.AddProgram (c : cache) (sdData : List SDProgram) : cache :=
  { c with
    Program := sdData.foldl
      (fun m sd => m.insert sd.ProgramID (programRecord sd)) c.Program }

/-- cache.AddMetadata (src/cache.go): upsert each payload element that
decodes as an SDMetadata record, keyed by its program ID; an element that
does not decode (the remote's per-entity error object) is logged and
skipped, modelled as `none`. -/
def cache.AddMetadata (c : cache) (items : List (Option SDMetadata)) : cache :=
  { c with
    Metadata := items.foldl
      (fun m t =>
        match t with
        | none => m
        | some sdData => m.insert sdData.ProgramID { Data := sdData.Data })
      c.Metadata }

/-- cache.CleanUp (src/cache.go): drop every schedule slot whose air time is
not after `now` (deleting a station's key when no slot remains), and drop
every program whose original-air-date string is nonempty, parses, and is
before `monthAgo`. `time.Now()` is passed explicitly as `now`,
`now.AddDate(0,-1,0)` as `monthAgo`, and `time.Parse("2006-01-02", s)` as
`parseDate`. -/
def cache.CleanUp (c : cache) (now : Int) (parseDate : String → Option Int)
    (monthAgo : Int) : cache :=
  { c with
    Schedule := c.Schedule.filterMap
      (fun kv =>
        let valid := kv.2.filter (fun s => decide (s.AirDateTime > now))
        if valid.isEmpty then none else some (kv.1, valid))
    Program := c.Program.filter
      (fun kv =>
        if kv.2.OriginalAirDate = "" then true
        else
          match parseDate kv.2.OriginalAirDate with
          | some airDate => ! decide (airDate < monthAgo)
          | none => true) }

/-- All program IDs referenced by the current Schedule entries, one per
slot, in map order. -/
def cache.referencedProgramIDs (c : cache) : List String :=
  ((c.Schedule.map Prod.snd).flatten).map (fun s => s.ProgramID)

/-- Modelled from the spec: `GetRequiredProgramIDs` is called by
`processProgramsAndMetadata` (src/data.go) but its defining file is not
under src/. The spec defines it as the set difference between all program
IDs referenced by current Schedule entries and the keys already present in
the Program map. -/
def cache.GetRequiredProgramIDs (c : cache) : List String :=
  c.referencedProgramIDs.filter (fun id => (c.Program.find id).isNone)

/-- Go string slicing `s[i:j]` on an ASCII string: `none` exactly when Go
panics with "slice bounds out of range". -/
def goSlice (s : String) (i j : Nat) : Option String :=
  if i ≤ j ∧ j ≤ s.length then some ((s.drop i).take (j - i)) else none

/-- Go string slicing `s[i:]` on an ASCII string: `none` exactly when Go
panics. -/
def goSliceFrom (s : String) (i : Nat) : Option String :=
  if i ≤ s.length then some (s.drop i) else none

/-- The dd_progid fallback value built by cache.GetEpisodeNum
(src/cache.go): the switch on id[0:2] and the slices id[0:10] and id[10:];
`none` models the out-of-range panic Go raises for short IDs. -/
def ddProgidValue (id : String) : Option String :=
  match goSlice id 0 2 with
  | none => none
  | some pre =>
    if pre = "EP" then
      match goSlice id 0 10, goSliceFrom id 10 with
      | some a, some b => some (a ++ "." ++ b)
      | _, _ => none
    else if pre = "SH" ∨ pre = "MV" then
      match goSlice id 0 10 with
      | some a => some (a ++ ".0000")
      | none => none
    else some id

/-- The tail of cache.GetEpisodeNum (src/cache.go): take the dd_progid
fallback when no Gracenote-based entries were built, then append the
original-air-date entry when present. -/
def episodeNumFinish (dd : Option String) (ep1 : List EpisodeNum) (oad : String) :
    Option (List EpisodeNum) :=
  let ep2 : Option (List EpisodeNum) :=
    if ep1.isEmpty then
      match dd with
      | none => none
      | some v => some (ep1 ++ [{ Value := v, System := "dd_progid" }])
    else some ep1
  match ep2 with
  | none => none
  | some ep =>
    if 0 < oad.length then
      some (ep ++ [{ Value := oad, System := "original-air-date" }])
    else some ep

/-- cache.GetEpisodeNum (src/cache.go): project the episode numbering value
objects for program `id`. The Go function indexes `id[0:2]`, `id[0:10]` and
`id[10:]` without bounds checks in the dd_progid fallback; a `none` result
models the out-of-range panic Go raises there. The misspelled loop variable
name `seaseon` is the source's. -/
def cache.GetEpisodeNum (c : cache) (id : String) : Option (List EpisodeNum) :=
  match c.Program.find id with
  | none => some []
  | some p =>
    let st := p.Metadata.foldl
      (fun (acc : Int × Int × List EpisodeNum) m =>
        let seaseon := m.Gracenote.Season
        let episode := m.Gracenote.Episode
        let ep :=
          if seaseon ≠ 0 ∧ episode ≠ 0 then
            acc.2.2 ++ [{ Value := toString (seaseon - 1) ++ "." ++ toString (episode - 1) ++ "."
                          System := "xmltv_ns" }]
          else acc.2.2
        (seaseon, episode, ep))
      (0, 0, [])
    let seaseon := st.1
    let episode := st.2.1
    let ep0 := st.2.2
    let ep1 :=
      if seaseon ≠ 0 ∧ episode ≠ 0 then
        ep0 ++ [{ Value := "S" ++ toString seaseon ++ " E" ++ toString episode
                  System := "onscreen" }]
      else ep0
    episodeNumFinish (ddProgidValue id) ep1 p.OriginalAirDate

/-! ## Retrying client (src/sd.go) -/

/-- maxRetries (src/sd.go). -/
def maxRetries : Nat := 3

/-- retryDelay = 2 seconds, in nanoseconds (src/sd.go). -/
def retryDelay : Int := 2000000000

/-- maxBackoff = 30 seconds, in nanoseconds (src/sd.go). -/
def maxBackoff : Int := 30000000000

/-- backoff (src/sd.go): `retryDelay * (1 << attempt)`, capped at
`maxBackoff`. The Go shift is on a 64-bit int; within the attempt range
reachable from Connect (attempt < maxRetries) the unbounded `Int` model is
exact. -/
def backoff (attempt : Nat) : Int :=
  let duration := retryDelay * (2 ^ attempt)
  if duration > maxBackoff then maxBackoff else duration

/-- The observable outcome of one attempt of the Connect loop (src/sd.go):
the attempt succeeds, fails retryably (network error, short read, or a
response error for which isRetryableError is true — backoff then retry), or
fails fatally (non-retryable processResponse error — return immediately). -/
inductive AttemptOutcome where
  | success
  | retryableErr
  | fatalErr
deriving DecidableEq

/-- The result of SD.Connect (src/sd.go): success on a given 0-based
attempt index, an immediate fatal error on a given attempt, or the
aggregated "all retry attempts failed" error after maxRetries attempts. -/
inductive ConnectResult where
  | ok (attempt : Nat)
  | fatal (attempt : Nat)
  | exhausted
deriving DecidableEq

/-- The retry loop of SD.Connect (src/sd.go), over the sequence of attempt
outcomes: after a retryable failure on attempt `a` the code sleeps
`backoff a` and retries; the loop makes at most `fuel` further attempts. -/
def connectLoop (outcomes : Nat → AttemptOutcome) : Nat → Nat → ConnectResult
  | _, 0 => .exhausted
  | attempt, fuel + 1 =>
    match outcomes attempt with
    | .success => .ok attempt
    | .fatalErr => .fatal attempt
    | .retryableErr => connectLoop outcomes (attempt + 1) fuel

/-- SD.Connect (src/sd.go): run the retry loop from attempt 0 with
maxRetries attempts. -/
def SDConnect (outcomes : Nat → AttemptOutcome) : ConnectResult :=
  connectLoop outcomes 0 maxRetries

/-! ## Rate limiters (src/sd.go, src/data.go) -/

/-- The refill interval of rateLimiter (src/sd.go):
`rate.Every(100*time.Millisecond)`, in nanoseconds. -/
def rateLimiterInterval : Int := 100000000

/-- The bucket capacity (burst) of rateLimiter (src/sd.go):
`rate.NewLimiter(rate.Every(100*time.Millisecond), 1)`. -/
def rateLimiterBurst : Nat := 1

/-- The bucket capacity (burst) of requestLimiter (src/data.go),
`rate.NewLimiter(rate.Every(100*time.Millisecond), maxConcurrentRequests)`
with maxConcurrentRequests = 5. This limiter is declared but no call site
under src/ ever waits on it; Connect waits on rateLimiter. -/
def requestLimiterBurst : Nat := 5

/-- The state of a burst-1 token-bucket limiter: the earliest time the next
token is available. This models golang.org/x/time/rate with burst 1 as used
by rateLimiter: `Wait` blocks until one token is available, then reserves
the bucket for one full interval. -/
structure LimiterState where
  availableAt : Int := 0
deriving DecidableEq

/-- One `rateLimiter.Wait` call arriving at time `t`: it is admitted at the
later of `t` and the bucket's token availability, and the next token becomes
available one interval after that. Returns the admission time and the new
limiter state. -/
def limiterWait (s : LimiterState) (t : Int) : Int × LimiterState :=
  let a := max t s.availableAt
  (a, { availableAt := a + rateLimiterInterval })

/-! ## WaitGroup bookkeeping of processProgramsAndMetadata (src/data.go) -/

/-- One sync.WaitGroup operation. -/
inductive WgOp where
  | add (n : Int)
  | done
deriving DecidableEq

/-- Run a sequence of WaitGroup operations from counter `c`; `none` models
the runtime panic "sync: negative WaitGroup counter". -/
def wgRun : List WgOp → Int → Option Int
  | [], c => some c
  | op :: rest, c =>
    let c2 := match op with
      | .add n => c + n
      | .done => c - 1
    if c2 < 0 then none else wgRun rest c2

/-- The WaitGroup operations performed for one successfully fetched batch of
the programs (or metadata) phase (src/data.go together with src/cache.go):
the dispatch loop calls `wg.Add(1)`, the spawned goroutine defers
`wg.Done()`, and `cache.AddProgram` / `cache.AddMetadata` themselves also
defer `wg.Done()` on the same WaitGroup — two Done calls for one Add. -/
def programBatchWgOps : List WgOp := [.add 1, .done, .done]

/-! ## Persistence: Init / Open / Save (src/cache.go)

The Go cache struct's four maps can be nil (their zero value); `Init` only
allocates a map when it is nil. The `expiration` field and the `stats`
struct are unexported, so `json.Marshal` does not write them into the
snapshot and `json.Unmarshal` does not touch them when loading one. A nil
map marshals to JSON null, which unmarshals back to a nil map; a non-nil
map marshals to a JSON object, which unmarshals by inserting its entries
into whatever map the field currently holds. -/

/-- defaultCacheExpiration = 24 hours, in nanoseconds (src/cache.go). -/
def defaultCacheExpiration : Int := 86400000000000

/-- The cache struct with its nil-able maps (src/cache.go): `none` is a nil
Go map. The unexported `expiration` field is kept in memory but never
serialized. -/
structure cacheRaw where
  Channel : Option (SMap G2GCache) := none
  Program : Option (SMap G2GCache) := none
  Metadata : Option (SMap G2GCache) := none
  Schedule : Option (SMap (List G2GCache)) := none
  expiration : Int := 0
deriving DecidableEq

/-- The on-disk snapshot document (src/cache.go, cache.Save): the four
exported entity maps and nothing else — the unexported expiration timestamp
is not marshalled. -/
structure SnapshotFile where
  Channel : Option (SMap G2GCache) := none
  Program : Option (SMap G2GCache) := none
  Metadata : Option (SMap G2GCache) := none
  Schedule : Option (SMap (List G2GCache)) := none
deriving DecidableEq

/-- cache.Init (src/cache.go): allocate each map only if it is nil, and set
the expiration to `now + defaultCacheExpiration`. A map that is already
allocated is left untouched, entries included. -/
def cacheRaw.Init (c : cacheRaw) (now : Int) : cacheRaw :=
  { Schedule := match c.Schedule with
      | none => some []
      | some m => some m
    Channel := match c.Channel with
      | none => some []
      | some m => some m
    Program := match c.Program with
      | none => some []
      | some m => some m
    Metadata := match c.Metadata with
      | none => some []
      | some m => some m
    expiration := now + defaultCacheExpiration }

/-- cache.Save (src/cache.go): marshal the exported fields — the four maps;
the write-temp-then-rename file handling is I/O and out of the model. -/
def cacheRaw.Save (c : cacheRaw) : SnapshotFile :=
  { Channel := c.Channel
    Program := c.Program
    Metadata := c.Metadata
    Schedule := c.Schedule }

/-- `json.Unmarshal` into one map field: JSON null sets the field to nil; a
JSON object inserts its entries into the field's current map (allocating one
when the field is nil). -/
def unmarshalMap {V : Type} (old upd : Option (SMap V)) : Option (SMap V) :=
  match upd with
  | none => none
  | some fm => some (SMap.insertAll (old.getD []) fm)

/-- cache.Open (src/cache.go): a missing file (`none`) initializes the
cache; otherwise the snapshot is unmarshalled into the receiver (leaving the
unexported expiration untouched), and if `now` is after the expiration the
code logs "Cache expired, reinitializing" and calls Init. -/
def cacheRaw.Open (c : cacheRaw) (file : Option SnapshotFile) (now : Int) :
    cacheRaw :=
  match file with
  | none => c.Init now
  | some f =>
    let cu : cacheRaw :=
      { Channel := unmarshalMap c.Channel f.Channel
        Program := unmarshalMap c.Program f.Program
        Metadata := unmarshalMap c.Metadata f.Metadata
        Schedule := unmarshalMap c.Schedule f.Schedule
        expiration := c.expiration }
    if now > cu.expiration then cu.Init now else cu

/-- The keys of an optional (nil-able) map are duplicate-free; every map
built by Go map operations satisfies this. -/
def keysNodup {V : Type} : Option (SMap V) → Prop
  | none => True
  | some m => m.keys.Nodup

instance {V : Type} (m : Option (SMap V)) : Decidable (keysNodup m) := by
  cases m with
  | none => exact isTrue trivial
  | some l => exact inferInstanceAs (Decidable (l.keys.Nodup))

/-! ## Merge characterization lemmas -/

theorem SMap.find_mem {V : Type} (m : SMap V) (k : String) (v : V)
    (h : m.find k = some v) : (k, v) ∈ m := by
  induction m with
  | nil => simp [SMap.find] at h
  | cons hd tl ih =>
      obtain ⟨k1, v1⟩ := hd
      by_cases h1 : k1 = k
      · subst h1
        simp [SMap.find] at h
        simp [h]
      · simp [SMap.find, h1] at h
        exact List.mem_cons_of_mem _ (ih h)

/-- The first occurrence of key `k` after folding a list of conditional
keyed upserts: the last selected element with key `k` wins, else the base
map's value. -/
theorem find_foldl_upsert {A V : Type} (step : SMap V → A → SMap V)
    (sel : A → Bool) (key : A → String) (val : A → V)
    (hstep : ∀ m a, step m a = if sel a then (m.insert (key a) (val a)) else m)
    (l : List A) (m : SMap V) (k : String) :
    (l.foldl step m).find k =
      (l.reverse.find? (fun a => sel a && (key a == k))).elim (m.find k)
        (fun a => some (val a)) := by
  induction l generalizing m with
  | nil => rfl
  | cons a l ih =>
      rw [List.foldl_cons, ih, List.reverse_cons, List.find?_append]
      cases hfind : l.reverse.find? (fun a => sel a && (key a == k)) with
      | some b => simp [Option.or]
      | none =>
          simp only [Option.or, hstep]
          by_cases hsel : sel a
          · by_cases hk : key a = k
            · simp [List.find?, hsel, hk, SMap.find_insert]
            · have hb : (key a == k) = false := beq_eq_false_iff_ne.mpr hk
              simp [List.find?, hsel, hb, SMap.find_insert, hk]
          · simp [List.find?, hsel]

/-- Channel-map content after cache.AddStations: the last selected payload
station with a given ID wins; unselected or absent IDs leave the map
unchanged at that key. -/
theorem addStations_find (c : cache) (sdData : SDStation) (lineup : String)
    (cfg : config) (k : String) :
    (c.AddStations sdData lineup cfg).Channel.find k =
      (sdData.Stations.reverse.find?
          (fun sd => decide (ContainsString (cfg.GetChannelList lineup) sd.StationID ≠ -1)
            && (sd.StationID == k))).elim
        (c.Channel.find k) (fun sd => some (stationRecord sd)) := by
  unfold cache.AddStations
  exact find_foldl_upsert
    (fun m sd =>
      if ContainsString (cfg.GetChannelList lineup) sd.StationID ≠ -1 then
        m.insert sd.StationID (stationRecord sd)
      else m)
    (fun sd => decide (ContainsString (cfg.GetChannelList lineup) sd.StationID ≠ -1))
    (fun sd => sd.StationID) stationRecord
    (fun m a => by
      by_cases h : ContainsString (cfg.GetChannelList lineup) a.StationID ≠ -1 <;> simp [h])
    sdData.Stations c.Channel k

/-- Program-map content after cache.AddProgram: the last payload record with
a given program ID wins; absent IDs leave the map unchanged. -/
theorem addProgram_find (c : cache) (sdData : List SDProgram) (k : String) :
    (c.AddProgram sdData).Program.find k =
      (sdData.reverse.find? (fun sd => sd.ProgramID == k)).elim
        (c.Program.find k) (fun sd => some (programRecord sd)) := by
  unfold cache.AddProgram
  have h := find_foldl_upsert
    (fun (m : SMap G2GCache) (sd : SDProgram) => m.insert sd.ProgramID (programRecord sd))
    (fun _ => true) (fun sd => sd.ProgramID) programRecord
    (fun m a => by simp) sdData c.Program k
  simpa using h

/-- Metadata-map content after cache.AddMetadata: the last decodable payload
element with a given program ID wins; error elements change nothing. -/
theorem addMetadata_find (c : cache) (items : List (Option SDMetadata)) (k : String) :
    (c.AddMetadata items).Metadata.find k =
      (items.reverse.find?
          (fun t => t.isSome && ((t.getD {}).ProgramID == k))).elim
        (c.Metadata.find k) (fun t => some { Data := (t.getD {}).Data }) := by
  unfold cache.AddMetadata
  have h := find_foldl_upsert
    (fun (m : SMap G2GCache) (t : Option SDMetadata) =>
      match t with
      | none => m
      | some sdData => m.insert sdData.ProgramID { Data := sdData.Data })
    (fun t => t.isSome) (fun t => (t.getD {}).ProgramID)
    (fun t => { Data := (t.getD {}).Data })
    (fun m a => by cases a <;> simp) items c.Metadata k
  simpa using h

/-- The slots a schedule payload contributes to station `k`, in payload
order. -/
def scheduleSlotsFor (pl : List SDSchedule) (k : String) : List G2GCache :=
  ((pl.filter (fun sd => sd.StationID == k)).map
    (fun sd => sd.Programs.map scheduleSlot)).flatten

theorem foldl_append_slots (ps : List SDScheduleProgram) (m : SMap (List G2GCache))
    (s k : String) (l : List G2GCache) (h : m.find s = some l) :
    (ps.foldl (fun acc p => acc.insert s (((acc.find s).getD []) ++ [scheduleSlot p])) m).find k =
      if s = k then some (l ++ ps.map scheduleSlot) else m.find k := by
  induction ps generalizing m l with
  | nil =>
      by_cases hk : s = k
      · subst hk
        simp [h]
      · simp [hk]
  | cons p ps ih =>
      rw [List.foldl_cons]
      have h1 : (m.insert s (((m.find s).getD []) ++ [scheduleSlot p])).find s
          = some (l ++ [scheduleSlot p]) := by
        rw [SMap.find_insert]
        simp [h]
      rw [ih _ _ h1]
      by_cases hk : s = k
      · simp [hk]
      · simp [hk, SMap.find_insert]

/-- Schedule-map content after one iteration of AddSchedule's outer loop:
the entry's station gets its slots appended (on a fresh empty list when the
key was absent); all other keys are untouched. -/
theorem addScheduleEntry_find (m : SMap (List G2GCache)) (sd : SDSchedule) (k : String) :
    (addScheduleEntry m sd).find k =
      if sd.StationID = k then
        some (((m.find sd.StationID).getD []) ++ sd.Programs.map scheduleSlot)
      else m.find k := by
  cases hf : m.find sd.StationID with
  | none =>
      have h0 : (m.insert sd.StationID []).find sd.StationID = some [] := by
        rw [SMap.find_insert]
        simp
      have hL : addScheduleEntry m sd
          = sd.Programs.foldl
              (fun acc p => acc.insert sd.StationID (((acc.find sd.StationID).getD []) ++ [scheduleSlot p]))
              (m.insert sd.StationID []) := by
        unfold addScheduleEntry
        rw [hf]
      rw [hL, foldl_append_slots _ _ _ _ _ h0]
      by_cases hk : sd.StationID = k
      · simp [hk]
      · simp [hk, SMap.find_insert]
  | some l =>
      have hL : addScheduleEntry m sd
          = sd.Programs.foldl
              (fun acc p => acc.insert sd.StationID (((acc.find sd.StationID).getD []) ++ [scheduleSlot p]))
              m := by
        unfold addScheduleEntry
        rw [hf]
      rw [hL, foldl_append_slots _ _ _ _ _ hf]
      by_cases hk : sd.StationID = k
      · simp [hk]
      · simp [hk]

/-- Schedule-map content after cache.AddSchedule: every station mentioned in
the payload gets the payload's slots for it appended to its (possibly fresh)
slot list; all other stations are untouched. -/
theorem addSchedule_find (c : cache) (pl : List SDSchedule) (k : String) :
    (c.AddSchedule pl).Schedule.find k =
      if pl.any (fun sd => sd.StationID == k) then
        some (((c.Schedule.find k).getD []) ++ scheduleSlotsFor pl k)
      else c.Schedule.find k := by
  show (pl.foldl addScheduleEntry c.Schedule).find k = _
  induction pl generalizing c with
  | nil => simp [scheduleSlotsFor]
  | cons sd pl ih =>
      rw [List.foldl_cons]
      have ih2 := ih { c with Schedule := addScheduleEntry c.Schedule sd }
      rw [show ({ c with Schedule := addScheduleEntry c.Schedule sd } : cache).Schedule
            = addScheduleEntry c.Schedule sd from rfl] at ih2
      rw [ih2, addScheduleEntry_find]
      by_cases hsd : sd.StationID = k
      · have hb : (sd.StationID == k) = true := by simp [hsd]
        have hslots : scheduleSlotsFor (sd :: pl) k
            = sd.Programs.map scheduleSlot ++ scheduleSlotsFor pl k := by
          simp [scheduleSlotsFor, List.filter_cons, hb]
        by_cases hpl : pl.any (fun x => x.StationID == k)
        · simp [hsd, hb, hpl, hslots, List.append_assoc]
        · have hfalse : pl.any (fun x => x.StationID == k) = false := by
            simpa using hpl
          have hnil : scheduleSlotsFor pl k = [] := by
            have hfil : pl.filter (fun x => x.StationID == k) = [] := by
              rw [List.filter_eq_nil_iff]
              intro a ha
              simpa using List.any_eq_false.mp hfalse a ha
            simp [scheduleSlotsFor, hfil]
          simp [hsd, hb, hpl, hslots, hnil]
      · have hb : (sd.StationID == k) = false := by simp [hsd]
        have hslots : scheduleSlotsFor (sd :: pl) k = scheduleSlotsFor pl k := by
          simp [scheduleSlotsFor, List.filter_cons, hb]
        simp [hsd, hb, hslots]

/-! ## Claim theorems -/

/-- C9: cache.AddStations merges into the Channel map exactly those payload
stations whose station ID is in the caller-selected channel list for the
lineup, keyed by station ID (the last payload occurrence of a key wins),
and a station ID with no selected payload station is never added — the
Channel map is unchanged at that key. -/
theorem C9_addStations_selected_only (c : cache) (sdData : SDStation)
    (lineup : String) (cfg : config) (id : String) :
    ((c.AddStations sdData lineup cfg).Channel.find id =
      (sdData.Stations.reverse.find?
          (fun sd => decide (ContainsString (cfg.GetChannelList lineup) sd.StationID ≠ -1)
            && (sd.StationID == id))).elim
        (c.Channel.find id) (fun sd => some (stationRecord sd))) ∧
    ((∀ sd ∈ sdData.Stations, sd.StationID = id →
        ContainsString (cfg.GetChannelList lineup) sd.StationID = -1) →
      (c.AddStations sdData lineup cfg).Channel.find id = c.Channel.find id) := by
  refine ⟨addStations_find c sdData lineup cfg id, fun h => ?_⟩
  rw [addStations_find c sdData lineup cfg id]
  have hnone : sdData.Stations.reverse.find?
      (fun sd => decide (ContainsString (cfg.GetChannelList lineup) sd.StationID ≠ -1)
        && (sd.StationID == id)) = none := by
    rw [List.find?_eq_none]
    intro sd hsd
    rw [List.mem_reverse] at hsd
    by_cases hid : sd.StationID = id
    · have hsel := h sd hsd hid
      simp [hsel]
    · simp [hid]
  rw [hnone]
  rfl

/-- The configuration of the C9 witness: one selected station A on lineup L. -/
def cfgC9 : config := { Station := [{ Name := "Alpha", ID := "A", Lineup := "L" }] }

/-- The payload of the C9 witness: stations A (selected) and B (unselected). -/
def rosterC9 : SDStation :=
  { Stations := [{ StationID := "A", Name := "Alpha" }, { StationID := "B", Name := "Beta" }] }

theorem C9_witness :
    (cache.AddStations {} rosterC9 "L" cfgC9).Channel.find "A"
        = some (stationRecord { StationID := "A", Name := "Alpha" }) ∧
    (cache.AddStations {} rosterC9 "L" cfgC9).Channel.find "B" = none := by
  constructor
  · rw [(C9_addStations_selected_only {} rosterC9 "L" cfgC9 "A").1]
    decide
  · rw [(C9_addStations_selected_only {} rosterC9 "L" cfgC9 "B").2 (by decide)]
    rfl

/-- C1: GetRequiredProgramIDs contains exactly the program IDs referenced by
the current Schedule entries that are not keys of the Program map (the
spec's set difference), and after merging a program payload containing an
ID with cache.AddProgram, that ID is no longer in any subsequent result. -/
theorem C1_requiredProgramIDs_diff :
    (∀ (c : cache) (id : String),
      id ∈ c.GetRequiredProgramIDs ↔
        (id ∈ c.referencedProgramIDs ∧ c.Program.find id = none)) ∧
    (∀ (c : cache) (pl : List SDProgram) (id : String),
      (∃ sd ∈ pl, sd.ProgramID = id) →
      id ∉ (c.AddProgram pl).GetRequiredProgramIDs) := by
  constructor
  · intro c id
    unfold cache.GetRequiredProgramIDs
    rw [List.mem_filter]
    simp [Option.isNone_iff_eq_none]
  · intro c pl id hex
    unfold cache.GetRequiredProgramIDs
    rw [List.mem_filter]
    rintro ⟨-, hnone⟩
    rw [addProgram_find] at hnone
    obtain ⟨sd, hsd, hid⟩ := hex
    cases hfind : pl.reverse.find? (fun x => x.ProgramID == id) with
    | none =>
        have hsome : (pl.reverse.find? (fun x => x.ProgramID == id)).isSome := by
          rw [List.find?_isSome]
          exact ⟨sd, List.mem_reverse.mpr hsd, by simp [hid]⟩
        rw [hfind] at hsome
        simp at hsome
    | some x =>
        rw [hfind] at hnone
        simp at hnone

/-- The cache of the C1 witness: Program map holds A and B, the schedule of
station S references A, B and C. -/
def cacheC1 : cache :=
  { Program := [("A", {}), ("B", {})]
    Schedule := [("S", [{ ProgramID := "A" }, { ProgramID := "B" }, { ProgramID := "C" }])] }

/-- The program payload of the C1 witness: the record for C. -/
def progC : SDProgram := { ProgramID := "C" }

theorem C1_witness :
    cacheC1.GetRequiredProgramIDs = ["C"] ∧
    "C" ∈ cacheC1.GetRequiredProgramIDs ∧
    "C" ∉ (cacheC1.AddProgram [progC]).GetRequiredProgramIDs ∧
    (cacheC1.AddProgram [progC]).GetRequiredProgramIDs = [] := by
  refine ⟨by decide, ?_, ?_, by decide⟩
  · exact (C1_requiredProgramIDs_diff.1 cacheC1 "C").mpr (by decide)
  · exact C1_requiredProgramIDs_diff.2 cacheC1 [progC] "C" ⟨progC, by decide, rfl⟩

/-- The schedule payload of the C3 counterexample: one station, one slot. -/
def schedPayloadC3 : List SDSchedule :=
  [{ StationID := "S", Programs := [{ ProgramID := "P1" }] }]

/-- C3 counterexample: merging the same schedule payload twice does not
yield the same Schedule map content as merging it once — cache.AddSchedule
appends the slot a second time. -/
theorem C3_counterexample_schedule_not_idempotent :
    (cache.AddSchedule (cache.AddSchedule {} schedPayloadC3) schedPayloadC3).Schedule
      ≠ (cache.AddSchedule {} schedPayloadC3).Schedule := by decide

/-- C3 amended: merging the same payload twice yields the same map content
as merging once for stations, programs and metadata (keyed upserts), but
not for schedules: a second cache.AddSchedule of the same payload appends
the payload's slots again to every station the payload mentions. -/
theorem C3_merge_idempotent_except_schedule :
    (∀ (c : cache) (sdData : SDStation) (lineup : String) (cfg : config) (k : String),
      ((c.AddStations sdData lineup cfg).AddStations sdData lineup cfg).Channel.find k
        = (c.AddStations sdData lineup cfg).Channel.find k) ∧
    (∀ (c : cache) (pl : List SDProgram) (k : String),
      ((c.AddProgram pl).AddProgram pl).Program.find k
        = (c.AddProgram pl).Program.find k) ∧
    (∀ (c : cache) (items : List (Option SDMetadata)) (k : String),
      ((c.AddMetadata items).AddMetadata items).Metadata.find k
        = (c.AddMetadata items).Metadata.find k) ∧
    (∀ (c : cache) (pl : List SDSchedule) (k : String),
      pl.any (fun sd => sd.StationID == k) →
      ((c.AddSchedule pl).AddSchedule pl).Schedule.find k
        = some ((((c.AddSchedule pl).Schedule.find k).getD []) ++ scheduleSlotsFor pl k)) := by
  refine ⟨?_, ?_, ?_, ?_⟩
  · intro c sdData lineup cfg k
    rw [addStations_find (c.AddStations sdData lineup cfg) sdData lineup cfg k]
    cases hfind : sdData.Stations.reverse.find?
        (fun sd => decide (ContainsString (cfg.GetChannelList lineup) sd.StationID ≠ -1)
          && (sd.StationID == k)) with
    | none => rfl
    | some sd =>
        rw [addStations_find c sdData lineup cfg k, hfind]
        rfl
  · intro c pl k
    rw [addProgram_find (c.AddProgram pl) pl k]
    cases hfind : pl.reverse.find? (fun sd => sd.ProgramID == k) with
    | none => rfl
    | some sd =>
        rw [addProgram_find c pl k, hfind]
        rfl
  · intro c items k
    rw [addMetadata_find (c.AddMetadata items) items k]
    cases hfind : items.reverse.find?
        (fun t => t.isSome && ((t.getD {}).ProgramID == k)) with
    | none => rfl
    | some t =>
        rw [addMetadata_find c items k, hfind]
        rfl
  · intro c pl k hany
    rw [addSchedule_find (c.AddSchedule pl) pl k]
    simp [hany]

theorem C3_witness :
    ((cache.AddSchedule (cache.AddSchedule {} schedPayloadC3) schedPayloadC3).Schedule.find "S"
      = some [scheduleSlot { ProgramID := "P1" }, scheduleSlot { ProgramID := "P1" }]) ∧
    ((cache.AddProgram (cache.AddProgram {} [progC]) [progC]).Program.find "C"
      = (cache.AddProgram {} [progC]).Program.find "C") := by
  constructor
  · rw [C3_merge_idempotent_except_schedule.2.2.2 {} schedPayloadC3 "S" (by decide)]
    decide
  · exact C3_merge_idempotent_except_schedule.2.1 {} [progC] "C"

/-! ## CleanUp lemmas -/

/-- The per-station pruning step of cache.CleanUp. -/
def cleanSlots (now : Int) (kv : String × List G2GCache) :
    Option (String × List G2GCache) :=
  let valid := kv.2.filter (fun s => decide (s.AirDateTime > now))
  if valid.isEmpty then none else some (kv.1, valid)

theorem cleanUp_schedule_eq (c : cache) (now : Int)
    (parseDate : String → Option Int) (monthAgo : Int) :
    (c.CleanUp now parseDate monthAgo).Schedule = c.Schedule.filterMap (cleanSlots now) := rfl

theorem find_filterMap_cleanSlots (sched : SMap (List G2GCache)) (now : Int)
    (k : String) (l : List G2GCache) (h : sched.find k = some l)
    (hne : ¬ (l.filter (fun s => decide (s.AirDateTime > now))).isEmpty) :
    SMap.find (List.filterMap (cleanSlots now) sched) k
      = some (l.filter (fun s => decide (s.AirDateTime > now))) := by
  induction sched with
  | nil => simp [SMap.find] at h
  | cons hd tl ih =>
      obtain ⟨k1, l1⟩ := hd
      by_cases h1 : k1 = k
      · subst h1
        simp [SMap.find] at h
        subst h
        rw [List.filterMap_cons]
        simp only [cleanSlots, if_neg hne]
        simp [SMap.find]
      · simp only [SMap.find, if_neg h1] at h
        rw [List.filterMap_cons]
        cases hf : cleanSlots now (k1, l1) with
        | none => exact ih h
        | some v =>
            have hv1 : v.1 = k1 := by
              unfold cleanSlots at hf
              by_cases he : (l1.filter (fun s => decide (s.AirDateTime > now))).isEmpty
              · simp [he] at hf
              · simp only [if_neg he, Option.some.injEq] at hf
                rw [← hf]
            obtain ⟨v1, v2⟩ := v
            simp only at hv1
            subst hv1
            simpa [SMap.find, h1] using ih h

theorem mem_filterMap_cleanSlots (sched : SMap (List G2GCache)) (now : Int)
    (k : String) (l : List G2GCache)
    (h : SMap.find (List.filterMap (cleanSlots now) sched) k = some l) :
    ∀ s ∈ l, s.AirDateTime > now := by
  have hmem := SMap.find_mem _ _ _ h
  rw [List.mem_filterMap] at hmem
  obtain ⟨kv, hkv, hf⟩ := hmem
  unfold cleanSlots at hf
  by_cases he : (kv.2.filter (fun s => decide (s.AirDateTime > now))).isEmpty
  · simp [he] at hf
  · simp only [if_neg he] at hf
    intro s hs
    have hl : kv.2.filter (fun s => decide (s.AirDateTime > now)) = l := by
      have h2 := congrArg Prod.snd (Option.some.inj hf)
      simpa using h2
    rw [← hl] at hs
    simpa using List.of_mem_filter hs

theorem filterMap_cleanSlots_idem (sched : SMap (List G2GCache)) (now : Int) :
    List.filterMap (cleanSlots now) (List.filterMap (cleanSlots now) sched)
      = List.filterMap (cleanSlots now) sched := by
  induction sched with
  | nil => rfl
  | cons kv tl ih =>
      rw [List.filterMap_cons]
      cases hf : cleanSlots now kv with
      | none => simpa [hf] using ih
      | some v =>
          have hv : v.2 = kv.2.filter (fun s => decide (s.AirDateTime > now))
              ∧ ¬ (kv.2.filter (fun s => decide (s.AirDateTime > now))).isEmpty := by
            unfold cleanSlots at hf
            by_cases he : (kv.2.filter (fun s => decide (s.AirDateTime > now))).isEmpty
            · simp [he] at hf
            · simp only [if_neg he, Option.some.injEq] at hf
              refine ⟨?_, he⟩
              have h2 := congrArg Prod.snd hf
              simpa using h2.symm
          rw [List.filterMap_cons]
          have hfv : cleanSlots now v = some v := by
            unfold cleanSlots
            have hfilt : v.2.filter (fun s => decide (s.AirDateTime > now)) = v.2 := by
              rw [hv.1]
              simp [List.filter_filter]
            simp only [hfilt]
            rw [if_neg (hv.1 ▸ hv.2)]
          rw [hfv, ih]

/-- C4: cache.CleanUp removes every schedule slot whose air time is ≤ now
and retains every slot whose air time is > now (each surviving station's
list is exactly its filtered list), and running CleanUp twice in a row with
the same arguments leaves the store unchanged the second time. -/
theorem C4_cleanUp_prune_spec :
    (∀ (c : cache) (now : Int) (parseDate : String → Option Int) (monthAgo : Int)
        (k : String) (l : List G2GCache),
      (c.CleanUp now parseDate monthAgo).Schedule.find k = some l →
      ∀ s ∈ l, s.AirDateTime > now) ∧
    (∀ (c : cache) (now : Int) (parseDate : String → Option Int) (monthAgo : Int)
        (k : String) (l : List G2GCache) (s : G2GCache),
      c.Schedule.find k = some l → s ∈ l → s.AirDateTime > now →
      (c.CleanUp now parseDate monthAgo).Schedule.find k
          = some (l.filter (fun x => decide (x.AirDateTime > now)))
        ∧ s ∈ l.filter (fun x => decide (x.AirDateTime > now))) ∧
    (∀ (c : cache) (now : Int) (parseDate : String → Option Int) (monthAgo : Int),
      (c.CleanUp now parseDate monthAgo).CleanUp now parseDate monthAgo
        = c.CleanUp now parseDate monthAgo) := by
  refine ⟨?_, ?_, ?_⟩
  · intro c now parseDate monthAgo k l h
    rw [cleanUp_schedule_eq] at h
    exact mem_filterMap_cleanSlots c.Schedule now k l h
  · intro c now parseDate monthAgo k l s hfind hmem hair
    have hsmem : s ∈ l.filter (fun x => decide (x.AirDateTime > now)) :=
      List.mem_filter.mpr ⟨hmem, by simpa using hair⟩
    have hne : ¬ (l.filter (fun x => decide (x.AirDateTime > now))).isEmpty := by
      intro hemp
      have hnil : l.filter (fun x => decide (x.AirDateTime > now)) = [] := by
        simpa using hemp
      rw [hnil] at hsmem
      simp at hsmem
    refine ⟨?_, hsmem⟩
    rw [cleanUp_schedule_eq]
    exact find_filterMap_cleanSlots c.Schedule now k l hfind hne
  · intro c now parseDate monthAgo
    cases c with
    | mk ch pr me sc ex =>
        unfold cache.CleanUp
        simp only
        congr 1
        · rw [List.filter_filter]
          simp only [Bool.and_self]
        · exact filterMap_cleanSlots_idem sc now

/-- A past slot of the C4 witness. -/
def slotPast : G2GCache := { AirDateTime := 1, ProgramID := "P" }

/-- A future slot of the C4 witness. -/
def slotFuture : G2GCache := { AirDateTime := 10, ProgramID := "Q" }

/-- The C4 witness cache: station S has one past and one future slot. -/
def cacheC4 : cache := { Schedule := [("S", [slotPast, slotFuture])] }

theorem C4_witness :
    (cacheC4.CleanUp 5 (fun _ => none) 0).Schedule.find "S" = some [slotFuture] ∧
    ((cacheC4.CleanUp 5 (fun _ => none) 0).CleanUp 5 (fun _ => none) 0
      = cacheC4.CleanUp 5 (fun _ => none) 0) := by
  have h := C4_cleanUp_prune_spec.2.1 cacheC4 5 (fun _ => none) 0 "S"
    [slotPast, slotFuture] slotFuture (by decide) (by decide) (by decide)
  refine ⟨?_, C4_cleanUp_prune_spec.2.2 cacheC4 5 (fun _ => none) 0⟩
  rw [h.1]
  decide

/-- C5: saving a fresh (non-expired) store and loading the snapshot back
into it reproduces identical content in all four entity maps. The Nodup
hypotheses are the Go-map invariant that keys are unique. -/
theorem C5_snapshot_roundtrip (c : cacheRaw) (now : Int)
    (hfresh : ¬ now > c.expiration)
    (h1 : keysNodup c.Channel) (h2 : keysNodup c.Program)
    (h3 : keysNodup c.Metadata) (h4 : keysNodup c.Schedule) :
    (c.Open (some c.Save) now).Channel = c.Channel ∧
    (c.Open (some c.Save) now).Program = c.Program ∧
    (c.Open (some c.Save) now).Metadata = c.Metadata ∧
    (c.Open (some c.Save) now).Schedule = c.Schedule := by
  have hmap : ∀ {V : Type} (m : Option (SMap V)), keysNodup m → unmarshalMap m m = m := by
    intro V m hm
    cases m with
    | none => rfl
    | some l => simp [unmarshalMap, SMap.insertAll_self l hm]
  have hopen : c.Open (some c.Save) now =
      { Channel := unmarshalMap c.Channel c.Channel
        Program := unmarshalMap c.Program c.Program
        Metadata := unmarshalMap c.Metadata c.Metadata
        Schedule := unmarshalMap c.Schedule c.Schedule
        expiration := c.expiration } := by
    simp [cacheRaw.Open, cacheRaw.Save, hfresh]
  rw [hopen]
  exact ⟨hmap c.Channel h1, hmap c.Program h2, hmap c.Metadata h3, hmap c.Schedule h4⟩

/-- The C5 witness store: a fresh store with one entry per map. -/
def cacheC5 : cacheRaw :=
  { Channel := some [("S1", { StationID := "S1" })]
    Program := some [("P1", {})]
    Metadata := some [("P1", { Data := [{ URI := "u" }] })]
    Schedule := some [("S1", [{ ProgramID := "P1" }])]
    expiration := 100 }

theorem C5_witness :
    (cacheC5.Open (some cacheC5.Save) 50).Channel = cacheC5.Channel ∧
    (cacheC5.Open (some cacheC5.Save) 50).Program = cacheC5.Program ∧
    (cacheC5.Open (some cacheC5.Save) 50).Metadata = cacheC5.Metadata ∧
    (cacheC5.Open (some cacheC5.Save) 50).Schedule = cacheC5.Schedule :=
  C5_snapshot_roundtrip cacheC5 50 (by decide) (by decide) (by decide)
    (by decide) (by decide)

/-- The stale channel record of the C2 failing snapshot. -/
def staleChannel : G2GCache := { StationID := "S1", Name := "Stale Channel" }

/-- The C2 failing snapshot: one cached channel. The snapshot carries no
expiration timestamp at all, because the Go field is unexported and
json.Marshal skips it. -/
def staleSnapshot : SnapshotFile :=
  { Channel := some [("S1", staleChannel)]
    Program := some []
    Metadata := some []
    Schedule := some [] }

/-- C2 failing input, evaluated: loading a snapshot whose expiration has
passed (the fresh process's in-memory expiration is the zero value 0, and
now = 1000 is after it) takes the "Cache expired, reinitializing" branch of
cache.Open, yet the resulting Channel map still holds the stale snapshot
entry instead of being empty — cache.Init only allocates maps that are nil.
The expiration is refreshed, but the stale data survives. -/
theorem C2_expired_open_keeps_stale_data :
    (1000 : Int) > ({} : cacheRaw).expiration ∧
    (cacheRaw.Open {} (some staleSnapshot) 1000).Channel = some [("S1", staleChannel)] ∧
    (cacheRaw.Open {} (some staleSnapshot) 1000).Channel ≠ some [] ∧
    (cacheRaw.Open {} (some staleSnapshot) 1000).expiration
      = 1000 + defaultCacheExpiration := by
  refine ⟨by decide, by decide, by decide, by decide⟩

/-- C6: SD.Connect makes at most maxRetries = 3 attempts — after N < 3
retryable failures it succeeds on attempt index N (the (N+1)-th attempt),
after 3 retryable failures it returns the aggregated error with no further
attempt — and the backoff slept after a failed attempt i is
retryDelay * 2^i capped at maxBackoff, non-decreasing in i and never above
the cap. -/
theorem C6_connect_retry_backoff :
    (∀ (outcomes : Nat → AttemptOutcome) (N : Nat), N + 1 ≤ maxRetries →
      (∀ i, i < N → outcomes i = .retryableErr) → outcomes N = .success →
      SDConnect outcomes = .ok N) ∧
    (∀ outcomes : Nat → AttemptOutcome,
      (∀ i, i < maxRetries → outcomes i = .retryableErr) →
      SDConnect outcomes = .exhausted) ∧
    (∀ i : Nat, i < maxRetries →
      backoff i = min (retryDelay * 2 ^ i) maxBackoff ∧
      backoff i ≤ backoff (i + 1) ∧ backoff i ≤ maxBackoff) := by
  refine ⟨?_, ?_, ?_⟩
  · intro outcomes N hN hret hsucc
    have hN3 : N < 3 := by
      have := hN
      simp [maxRetries] at this
      omega
    interval_cases N
    · simp [SDConnect, connectLoop, maxRetries, hsucc]
    · have h0 := hret 0 (by omega)
      simp [SDConnect, connectLoop, maxRetries, h0, hsucc]
    · have h0 := hret 0 (by omega)
      have h1 := hret 1 (by omega)
      simp [SDConnect, connectLoop, maxRetries, h0, h1, hsucc]
  · intro outcomes h
    have h0 := h 0 (by decide)
    have h1 := h 1 (by decide)
    have h2 := h 2 (by decide)
    simp [SDConnect, connectLoop, maxRetries, h0, h1, h2]
  · intro i hi
    have hi3 : i < 3 := by simpa [maxRetries] using hi

    interval_cases i
    · exact ⟨by decide, by decide, by decide⟩
    · exact ⟨by decide, by decide, by decide⟩
    · exact ⟨by decide, by decide, by decide⟩

/-- The C6 witness outcome sequence: two retryable failures, then success. -/
def outcomesC6 : Nat → AttemptOutcome :=
  fun i => if i < 2 then .retryableErr else .success

theorem C6_witness :
    SDConnect outcomesC6 = .ok 2 ∧ backoff 1 ≤ backoff 2 := by
  constructor
  · exact C6_connect_retry_backoff.1 outcomesC6 2 (by decide)
      (fun i hi => by simp [outcomesC6, hi]) (by decide)
  · exact (C6_connect_retry_backoff.2.2 1 (by decide)).2.1

/-- C7 counterexample: the token-bucket limiter every send blocks on
(rateLimiter in src/sd.go) does not have bucket capacity 5 — its burst is 1. -/
theorem C7_counterexample_burst_not_five : rateLimiterBurst ≠ 5 := by decide

/-- C7 amended: the limiter shared by all request senders (rateLimiter) has
refill interval 100ms and bucket capacity 1 (the capacity-5 requestLimiter
of src/data.go is declared but never waited on), and under the burst-1
token-bucket model two consecutive admissions are always at least one
interval apart, so no call sequence is admitted faster than one per 100ms. -/
theorem C7_rate_limit_spec :
    rateLimiterInterval = 100000000 ∧ rateLimiterBurst = 1 ∧
    requestLimiterBurst = 5 ∧
    (∀ (s : LimiterState) (t1 t2 : Int),
      (limiterWait (limiterWait s t1).2 t2).1 ≥ (limiterWait s t1).1 + rateLimiterInterval) := by
  refine ⟨rfl, rfl, rfl, ?_⟩
  intro s t1 t2
  simp only [limiterWait]
  exact le_max_right _ _

/-- C8 failing input, evaluated: the WaitGroup operations of a single
successfully fetched batch of the programs/metadata phase (one wg.Add(1),
then wg.Done() both inside cache.AddProgram/AddMetadata and in the
goroutine's own defer) drive the WaitGroup counter negative, which panics
at runtime — the phase cannot join its merge tasks and return the first
merge error as the claim describes. -/
theorem C8_wg_counter_goes_negative : wgRun programBatchWgOps 0 = none := by decide

/-- The C10 counterexample cache: the Program map holds the one-character
program ID "E" with no Gracenote metadata. -/
def shortIDCache : cache := { Program := [("E", {})] }

/-- C10 counterexample: querying the one-character program ID "E", which is
present in the Program map, reaches the dd_progid fallback and evaluates
id[0:2] on a string of length 1 — the modelled out-of-range panic, not a
result. -/
theorem C10_counterexample_short_id_panics :
    shortIDCache.GetEpisodeNum "E" = none := by decide

/-- C10 amended: cache.GetEpisodeNum returns a result without out-of-range
string indexing for every program ID of length ≥ 2 that, when its first two
characters are EP, SH or MV, has length ≥ 10; for shorter IDs the dd_progid
fallback panics. -/
theorem C10_getEpisodeNum_total_for_long_ids (c : cache) (id : String)
    (h2 : 2 ≤ id.length)
    (h10 : ∀ pre, goSlice id 0 2 = some pre →
      (pre = "EP" ∨ pre = "SH" ∨ pre = "MV") → 10 ≤ id.length) :
    (c.GetEpisodeNum id).isSome := by
  have hsl : goSlice id 0 2 = some ((id.drop 0).take 2) := by
    unfold goSlice
    rw [if_pos ⟨by omega, h2⟩]
  have hdd : (ddProgidValue id).isSome := by
    unfold ddProgidValue
    rw [hsl]
    by_cases hEP : (id.drop 0).take 2 = "EP"
    · have h10b : 10 ≤ id.length := h10 _ hsl (Or.inl hEP)
      have ha : goSlice id 0 10 = some ((id.drop 0).take 10) := by
        unfold goSlice
        rw [if_pos ⟨by omega, h10b⟩]
      have hb : goSliceFrom id 10 = some (id.drop 10) := by
        unfold goSliceFrom
        rw [if_pos h10b]
      simp [hEP, ha, hb]
    · by_cases hSM : (id.drop 0).take 2 = "SH" ∨ (id.drop 0).take 2 = "MV"
      · have h10b : 10 ≤ id.length := h10 _ hsl (Or.inr hSM)
        have ha : goSlice id 0 10 = some ((id.drop 0).take 10) := by
          unfold goSlice
          rw [if_pos ⟨by omega, h10b⟩]
        rcases hSM with hSH | hMV
        · simp [hEP, hSH, ha]
        · simp [hEP, hMV, ha]
      · simp [hEP, hSM]
  have hfin : ∀ (dd : Option String), dd.isSome → ∀ (ep1 : List EpisodeNum) (oad : String),
      (episodeNumFinish dd ep1 oad).isSome := by
    intro dd hs ep1 oad
    cases dd with
    | none => simp at hs
    | some v =>
        unfold episodeNumFinish
        by_cases he : ep1.isEmpty <;> by_cases ho : 0 < oad.length <;> simp [he, ho]
  unfold cache.GetEpisodeNum
  cases hfind : c.Program.find id with
  | none => simp
  | some p => exact hfin (ddProgidValue id) hdd _ p.OriginalAirDate

/-- The C10 witness cache: a realistic 14-character EP program ID. -/
def longIDCache : cache := { Program := [("EP012345678901", {})] }

theorem C10_witness :
    (longIDCache.GetEpisodeNum "EP012345678901").isSome :=
  C10_getEpisodeNum_total_for_long_ids longIDCache "EP012345678901" (by decide)
    (fun _ _ _ => by decide)
